import Mathlib

/-!
Verification of the HTTP transport / session layer of the legal-research MCP
server (`src/http-server.ts`).  The JavaScript runtime values that flow through
the transport are embedded as the inductive type `JsValue`; each function of
the source file is translated to a Lean definition of the same name, with
`Date.now()` and `uuidv4()` passed in as explicit parameters and the global
`sessions` map threaded as explicit state.
-/

namespace LegalMcp

/-- Runtime JSON/JS value as seen by the transport layer: everything
`express.json()` can place in `req.body`, plus `undefined`, which JS property
access can produce. -/
inductive JsValue where
  | undefined
  | null
  | bool (b : Bool)
  | num (n : Int)
  | str (s : String)
  | arr (elems : List JsValue)
  | obj (fields : List (String × JsValue))

/-- First binding of key `k` in a JS object's field list (JS objects have
unique keys after JSON parsing; lookup returns the first match). -/
def getField (fields : List (String × JsValue)) (k : String) : Option JsValue :=
  (fields.find? (fun p => p.1 = k)).map (fun p => p.2)

/-- Exceptions thrown inside the transport layer: `HttpError`, `RpcError`
(classes defined in src/http-server.ts:30-42), JS `TypeError`, and any other
exception (payload opaque to the handler). -/
inductive Exc where
  | http (status : Nat) (message : String)
  | rpc (code : Int) (message : String)
  | typeError (message : String)
  | other (message : String)
deriving Repr, DecidableEq

/-- JS property access `v.k`: throws `TypeError` on `null`/`undefined`;
returns the field (or `undefined`) on objects; returns `undefined` on the
remaining values for the property names this layer reads (`method`, `id`,
`params`, `name`, ...), which are not built-ins of any primitive or array. -/
def getProp : JsValue → String → Except Exc JsValue
  | .null, k => .error (.typeError ("Cannot read properties of null (reading '" ++ k ++ "')"))
  | .undefined, k => .error (.typeError ("Cannot read properties of undefined (reading '" ++ k ++ "')"))
  | .obj fields, k => .ok ((getField fields k).getD .undefined)
  | _, _ => .ok .undefined

/-- JS `k in v`: property-presence test.  Throws `TypeError` when the right
operand is not an object; on arrays the keys this layer tests (`id`) are never
present. -/
def inOp : JsValue → String → Except Exc Bool
  | .obj fields, k => .ok (getField fields k).isSome
  | .arr _, _ => .ok false
  | _, k => .error (.typeError ("Cannot use 'in' operator to search for '" ++ k ++ "' in value"))

/-- JS `typeof v === 'string'`. -/
def isStringTypeof : JsValue → Bool
  | .str _ => true
  | _ => false

/-- Total object-field read used where the source's TypeScript types already
guarantee the value is an object (e.g. `request.id`, `request.method` on a
classified `JSONRPCRequest`). -/
def objGet (v : JsValue) (k : String) : JsValue :=
  match v with
  | .obj fields => (getField fields k).getD .undefined
  | _ => .undefined

/-- JS optional chaining `v?.k`: `undefined` when `v` is `null`/`undefined`,
plain (non-throwing) property access otherwise. -/
def optChainProp (v : JsValue) (k : String) : JsValue :=
  match v with
  | .null => .undefined
  | .undefined => .undefined
  | .obj fields => (getField fields k).getD .undefined
  | _ => .undefined

/-- String payload of a `JsValue` the source's types already fix to be a
string (the `method` of a classified request or notification). -/
def asStr : JsValue → String
  | .str s => s
  | _ => ""

/-- Embeds `isRequest` (src/http-server.ts:248-250):
`typeof message.method === 'string' && 'id' in message`, with JS
short-circuiting of `&&`. -/
def isRequest (message : JsValue) : Except Exc Bool :=
  match getProp message "method" with
  | .error e => .error e
  | .ok m => if isStringTypeof m then inOp message "id" else .ok false

/-- Embeds `isNotification` (src/http-server.ts:252-254):
`typeof message.method === 'string' && !('id' in message)`. -/
def isNotification (message : JsValue) : Except Exc Bool :=
  match getProp message "method" with
  | .error e => .error e
  | .ok m =>
    if isStringTypeof m then
      match inOp message "id" with
      | .error e => .error e
      | .ok b => .ok (!b)
    else .ok false

/-- Result record of `partitionMessages`. -/
structure Partition where
  requests : List JsValue
  notifications : List JsValue
  responses : List JsValue

/-- Loop body of `partitionMessages` (src/http-server.ts:230-246): each
message is pushed onto exactly one of the three accumulators; a thrown
`TypeError` aborts the whole partition. -/
def partitionGo : List JsValue → Partition → Except Exc Partition
  | [], acc => .ok acc
  | m :: rest, acc =>
    match isRequest m with
    | .error e => .error e
    | .ok true => partitionGo rest { acc with requests := acc.requests ++ [m] }
    | .ok false =>
      match isNotification m with
      | .error e => .error e
      | .ok true => partitionGo rest { acc with notifications := acc.notifications ++ [m] }
      | .ok false => partitionGo rest { acc with responses := acc.responses ++ [m] }

/-- Embeds `partitionMessages` (src/http-server.ts:230-246). -/
def partitionMessages (messages : List JsValue) : Except Exc Partition :=
  partitionGo messages ⟨[], [], []⟩

/-- Spec-side classification rule (spec §4.1 / §3, stated for the refinement
claim C1): the message has a `method` field holding a string. -/
def methodIsString (m : JsValue) : Bool :=
  match m with
  | .obj fields =>
    match getField fields "method" with
    | some (.str _) => true
    | _ => false
  | _ => false

/-- Spec-side classification rule: the message has an `id` field. -/
def hasIdField (m : JsValue) : Bool :=
  match m with
  | .obj fields => (getField fields "id").isSome
  | _ => false

/-- Spec §4.1: a message with a string `method` field and an identifier field
is a Request. -/
def specIsRequest (m : JsValue) : Bool :=
  methodIsString m && hasIdField m

/-- Spec §4.1: a message with a string `method` field and no identifier field
is a Notification. -/
def specIsNotification (m : JsValue) : Bool :=
  methodIsString m && !hasIdField m

/-- Spec §4.1: anything else is treated as a Response. -/
def specIsResponse (m : JsValue) : Bool :=
  !methodIsString m

theorem isRequest_eq (m : JsValue) (h1 : m ≠ .null) (h2 : m ≠ .undefined) :
    isRequest m = .ok (specIsRequest m) := by
  cases m <;>
    simp_all [isRequest, specIsRequest, getProp, inOp, methodIsString, hasIdField,
      isStringTypeof]
  case obj fields =>
    cases h : getField fields "method" with
    | none => simp
    | some v => cases v <;> simp

theorem isNotification_eq (m : JsValue) (h1 : m ≠ .null) (h2 : m ≠ .undefined) :
    isNotification m = .ok (specIsNotification m) := by
  cases m <;>
    simp_all [isNotification, specIsNotification, getProp, inOp, methodIsString,
      hasIdField, isStringTypeof]
  case obj fields =>
    cases h : getField fields "method" with
    | none => simp
    | some v => cases v <;> simp

theorem isRequest_null : isRequest .null =
    .error (.typeError "Cannot read properties of null (reading 'method')") := rfl

theorem partitionGo_ok (msgs : List JsValue) :
    ∀ acc p, partitionGo msgs acc = .ok p →
      p.requests = acc.requests ++ msgs.filter specIsRequest ∧
      p.notifications = acc.notifications ++ msgs.filter specIsNotification ∧
      p.responses = acc.responses ++ msgs.filter specIsResponse := by
  induction msgs with
  | nil => intro acc p h; simp [partitionGo] at h; simp [h.symm]
  | cons m rest ih =>
    intro acc p h
    have hnn : m ≠ .null ∧ m ≠ .undefined := by
      constructor <;> rintro rfl <;>
        simp [partitionGo, isRequest, getProp] at h
    rw [partitionGo, isRequest_eq m hnn.1 hnn.2] at h
    by_cases hreq : specIsRequest m
    · simp only [hreq] at h
      have := ih _ _ h
      have hnot : specIsNotification m = false := by
        simp only [specIsRequest, Bool.and_eq_true] at hreq
        simp [specIsNotification, hreq.1, hreq.2]
      have hresp : specIsResponse m = false := by
        simp only [specIsRequest, Bool.and_eq_true] at hreq
        simp [specIsResponse, hreq.1]
      simp only [List.filter_cons, hreq, hnot, hresp] at *
      simpa using this
    · simp only [Bool.not_eq_true] at hreq
      simp only [hreq] at h
      rw [isNotification_eq m hnn.1 hnn.2] at h
      by_cases hnot : specIsNotification m
      · simp only [hnot] at h
        have := ih _ _ h
        have hresp : specIsResponse m = false := by
          simp only [specIsNotification, Bool.and_eq_true] at hnot
          simp [specIsResponse, hnot.1]
        simp only [List.filter_cons, hreq, hnot, hresp] at *
        simpa using this
      · simp only [Bool.not_eq_true] at hnot
        simp only [hnot] at h
        have := ih _ _ h
        have hresp : specIsResponse m = true := by
          rcases hb : methodIsString m with _ | _
          · simp [specIsResponse, hb]
          · exfalso
            rcases hid : hasIdField m with _ | _
            · simp [specIsNotification, hb, hid] at hnot
            · simp [specIsRequest, hb, hid] at hreq
        simp only [List.filter_cons, hreq, hnot, hresp] at *
        simpa using this

/-- Claim C1: for every decoded batch on which `partitionMessages` succeeds,
every message is assigned to exactly one of the three ordered sequences
(requests, notifications, responses) by the structural rule — string `method`
plus `id` field ⇒ Request; string `method` without `id` ⇒ Notification;
anything else ⇒ Response — and each output sequence is the order-preserving
filter of the input by its rule. -/
theorem c1_partition_correct (msgs : List JsValue) (p : Partition)
    (h : partitionMessages msgs = .ok p) :
    p.requests = msgs.filter specIsRequest ∧
    p.notifications = msgs.filter specIsNotification ∧
    p.responses = msgs.filter specIsResponse ∧
    ∀ m ∈ msgs,
      (specIsRequest m).toNat + (specIsNotification m).toNat +
        (specIsResponse m).toNat = 1 := by
  have := partitionGo_ok msgs ⟨[], [], []⟩ p h
  simp only [List.nil_append] at this
  refine ⟨this.1, this.2.1, this.2.2, ?_⟩
  intro m _
  simp only [specIsRequest, specIsNotification, specIsResponse]
  cases hb : methodIsString m <;> cases hid : hasIdField m <;> simp

/-- Witness for C1 at a concrete three-message batch (one request, one
notification, one response-shaped message). -/
theorem c1_partition_correct_witness :
    let msgs : List JsValue :=
      [.obj [("jsonrpc", .str "2.0"), ("id", .num 1), ("method", .str "ping")],
       .obj [("jsonrpc", .str "2.0"), ("method", .str "initialized")],
       .obj [("jsonrpc", .str "2.0"), ("id", .num 7), ("result", .obj [])]]
    ∃ p, partitionMessages msgs = .ok p ∧
      p.requests = msgs.filter specIsRequest ∧
      p.notifications = msgs.filter specIsNotification ∧
      p.responses = msgs.filter specIsResponse := by
  intro msgs
  refine ⟨⟨[msgs.get ⟨0, by simp [msgs]⟩], [msgs.get ⟨1, by simp [msgs]⟩],
    [msgs.get ⟨2, by simp [msgs]⟩]⟩, rfl, ?_⟩
  have h := c1_partition_correct msgs _ rfl
  exact ⟨h.1, h.2.1, h.2.2.1⟩

/-! ## Session store (src/http-server.ts:21-55, 357-395) -/

/-- `SESSION_TIMEOUT_MS = 30 * 60 * 1000` (src/http-server.ts:21). -/
def SESSION_TIMEOUT_MS : Nat := 30 * 60 * 1000

/-- The `Session` interface (src/http-server.ts:23-28).  Timestamps are
milliseconds since epoch (`Date.now()`), embedded as `Nat`. -/
structure Session where
  id : String
  createdAt : Nat
  lastActivity : Nat
  initialized : Bool
deriving Repr, DecidableEq

/-- The global `sessions : Map<string, Session>` (src/http-server.ts:44),
embedded as a list of sessions keyed by their `id` field (the source always
uses the session's own id as the map key). -/
abbrev Store : Type := List Session

/-- `sessions.get(sessionId)`: first session with the given id. -/
def lookup (st : Store) (sessionId : String) : Option Session :=
  List.find? (fun s => s.id = sessionId) st

/-- In-place mutation of the session object held in the map (the source
mutates `Session` objects through the shared reference): replace the first
entry with the same id; if the object is no longer in the map, the map is
unchanged. -/
def storeSet : Store → Session → Store
  | [], _ => []
  | s :: rest, v => if s.id = v.id then v :: rest else s :: storeSet rest v

/-- The eviction condition of the sweep (src/http-server.ts:50):
`now - session.lastActivity >= SESSION_TIMEOUT_MS`, over JS number
arithmetic (which can go negative), embedded in `Int`. -/
def sessionExpired (now : Nat) (s : Session) : Bool :=
  decide ((SESSION_TIMEOUT_MS : Int) ≤ (now : Int) - (s.lastActivity : Int))

/-- The `setInterval` sweep body (src/http-server.ts:47-55): delete every
session whose idle time has reached the timeout window. -/
def sweepSessions (st : Store) (now : Nat) : Store :=
  List.filter (fun s => !sessionExpired now s) st

/-- Embeds `createSession` (src/http-server.ts:364-376); `uuidv4()` is the
explicit `freshId` parameter and `Date.now()` the `now` parameter. -/
def createSession (st : Store) (now : Nat) (freshId : String) : Session × Store :=
  let session : Session := { id := freshId, createdAt := now, lastActivity := now,
                             initialized := false }
  (session, st ++ [session])

/-- Embeds `requireSessionHeader` (src/http-server.ts:378-383); a missing or
empty header arrives as `none` (the handler normalizes `'' || undefined`). -/
def requireSessionHeader : Option String → Except Exc String
  | none => .error (.http 400 "Missing Mcp-Session-Id header")
  | some sid => .ok sid

/-- Embeds `loadSession` (src/http-server.ts:385-391). -/
def loadSession (st : Store) (sessionId : String) : Except Exc Session :=
  match lookup st sessionId with
  | none => .error (.http 404 "Session not found")
  | some s => .ok s

/-- Embeds `touchSession` (src/http-server.ts:393-395): sets
`session.lastActivity = Date.now()` on the shared session object. -/
def touchSession (st : Store) (s : Session) (now : Nat) : Store :=
  storeSet st { s with lastActivity := now }

/-- Loop body of `processNotifications` (src/http-server.ts:267-282): the
`switch` on `notification.method`, threading the mutable session object and
the store. -/
def processNotifIter (now : Nat) : List JsValue → Session → Store → Session × Store
  | [], s, st => (s, st)
  | n :: rest, s, st =>
    let method := asStr (objGet n "method")
    if method = "initialized" then
      let s' : Session := { s with initialized := true, lastActivity := now }
      processNotifIter now rest s' (storeSet st s')
    else if method = "notifications/cancelled" ∨ method = "notifications/progress" then
      let s' : Session := { s with lastActivity := now }
      processNotifIter now rest s' (storeSet st s')
    else
      processNotifIter now rest s st

/-- Embeds `processNotifications` (src/http-server.ts:256-283). -/
def processNotifications (headerSessionId : Option String)
    (notifications : List JsValue) (st : Store) (now : Nat) :
    Except Exc Unit × Store :=
  if notifications.length = 0 then (.ok (), st)
  else
    match requireSessionHeader headerSessionId with
    | .error e => (.error e, st)
    | .ok sid =>
      match loadSession st sid with
      | .error e => (.error e, st)
      | .ok session =>
        let out := processNotifIter now notifications session st
        (.ok (), out.2)

theorem lookup_id (st : Store) (sid : String) (s : Session)
    (h : lookup st sid = some s) : s.id = sid := by
  have := List.find?_some h
  simpa using this

theorem lookup_storeSet_self (st : Store) (sid : String) (t v : Session)
    (h : lookup st sid = some t) (hv : v.id = sid) :
    lookup (storeSet st v) sid = some v := by
  induction st with
  | nil => simp [lookup] at h
  | cons a rest ih =>
    by_cases hav : a.id = sid
    · rw [← hv] at hav
      simp [storeSet, hav, lookup, List.find?, hv]
    · have h' : lookup rest sid = some t := by
        simpa [lookup, List.find?, hav] using h
      have hv' : ¬ a.id = v.id := by rw [hv]; exact hav
      simpa [storeSet, hv', lookup, List.find?, hav] using ih h'

theorem lookup_eq_none (st : Store) (sid : String)
    (h : sid ∉ st.map Session.id) : lookup st sid = none := by
  induction st with
  | nil => rfl
  | cons a rest ih =>
    simp only [List.map_cons, List.mem_cons] at h
    push_neg at h
    have ha : ¬ a.id = sid := fun e => h.1 e.symm
    simpa [lookup, List.find?, ha] using ih h.2

theorem notMem_map_filter (st : Store) (sid : String) (p : Session → Bool)
    (h : sid ∉ st.map Session.id) : sid ∉ (st.filter p).map Session.id := by
  intro hmem
  apply h
  simp only [List.mem_map] at hmem ⊢
  obtain ⟨x, hx, hxid⟩ := hmem
  exact ⟨x, (List.mem_filter.mp hx).1, hxid⟩

/-- Claim C4: the periodic sweep evicts exactly the sessions whose idle time
`now - lastActivity` has reached `SESSION_TIMEOUT_MS`: after
`sweepSessions`, loading an expired session's identifier fails with the
404 `Session not found` error, while a session touched within the window
survives and loads unchanged. -/
theorem c4_idle_eviction (st : Store) (now : Nat) (sid : String) (s : Session)
    (hnd : (st.map Session.id).Nodup) (hs : lookup st sid = some s) :
    (sessionExpired now s = true →
       loadSession (sweepSessions st now) sid =
         .error (.http 404 "Session not found")) ∧
    (sessionExpired now s = false →
       loadSession (sweepSessions st now) sid = .ok s) := by
  induction st with
  | nil => simp [lookup] at hs
  | cons a rest ih =>
    simp only [List.map_cons, List.nodup_cons] at hnd
    by_cases hav : a.id = sid
    · have hsa : a = s := by
        have h2 : some a = some s := by simpa [lookup, List.find?, hav] using hs
        exact Option.some.inj h2
      constructor
      · intro hexp
        have hexpA : sessionExpired now a = true := by rw [hsa]; exact hexp
        have hnone : lookup (sweepSessions (a :: rest) now) sid = none := by
          rw [sweepSessions, List.filter_cons]
          simp only [hexpA, Bool.not_true]
          simp only [Bool.false_eq_true, if_false]
          exact lookup_eq_none _ _ (by
            rw [← hav]
            exact notMem_map_filter rest a.id _ hnd.1)
        simp [loadSession, hnone]
      · intro hexp
        have hexpA : sessionExpired now a = false := by rw [hsa]; exact hexp
        have hsome : lookup (sweepSessions (a :: rest) now) sid = some a := by
          rw [sweepSessions, List.filter_cons]
          simp only [hexpA, Bool.not_false, if_true]
          simp [lookup, List.find?, hav]
        simp only [loadSession]
        rw [hsome]
        simp [hsa]
    · have h' : lookup rest sid = some s := by
        simpa [lookup, List.find?, hav] using hs
      have ihr := ih hnd.2 h'
      have hstep : lookup (sweepSessions (a :: rest) now) sid
          = lookup (sweepSessions rest now) sid := by
        rw [sweepSessions, List.filter_cons]
        cases hexp : !sessionExpired now a with
        | true =>
          simp only [hexp, if_true]
          simp [lookup, List.find?, hav, sweepSessions]
        | false =>
          simp only [hexp, Bool.false_eq_true, if_false]
          simp [sweepSessions]
      constructor
      · intro he
        have h1 := ihr.1 he
        simp only [loadSession] at h1 ⊢
        rw [hstep]
        exact h1
      · intro he
        have h1 := ihr.2 he
        simp only [loadSession] at h1 ⊢
        rw [hstep]
        exact h1

/-- Witness for C4: a store with one session idle for exactly the window and
one touched 1 ms before the window elapses; the first is evicted, the second
survives. -/
theorem c4_idle_eviction_witness :
    let stale : Session := ⟨"sess-a", 0, 0, true⟩
    let fresh : Session := ⟨"sess-b", 0, 1, true⟩
    let st : Store := [stale, fresh]
    loadSession (sweepSessions st SESSION_TIMEOUT_MS) "sess-a" =
        .error (.http 404 "Session not found") ∧
    loadSession (sweepSessions st SESSION_TIMEOUT_MS) "sess-b" = .ok fresh := by
  intro stale fresh st
  constructor
  · exact (c4_idle_eviction st SESSION_TIMEOUT_MS "sess-a" stale
      (by decide) (by rfl)).1 (by decide)
  · exact (c4_idle_eviction st SESSION_TIMEOUT_MS "sess-b" fresh
      (by decide) (by rfl)).2 (by decide)

/-! ## Header validation and body normalization (src/http-server.ts:192-228) -/

/-- Prefix test on character lists. -/
def charsPrefix : List Char → List Char → Bool
  | [], _ => true
  | _ :: _, [] => false
  | a :: as, b :: bs => a == b && charsPrefix as bs

/-- Occurrence test of `need` inside a character list. -/
def charsContains (need : List Char) : List Char → Bool
  | [] => need.isEmpty
  | c :: rest => charsPrefix need (c :: rest) || charsContains need rest

/-- JS `String.prototype.includes`. -/
def strIncludes (s sub : String) : Bool :=
  charsContains sub.data s.data

/-- JS `String.prototype.toLowerCase` (ASCII case folding, which covers the
header values the source compares). -/
def strToLower (s : String) : String :=
  ⟨s.data.map Char.toLower⟩

/-- Embeds `enforceAcceptHeader` (src/http-server.ts:192-200); `accept` is
`req.header('accept') || ''`. -/
def enforceAcceptHeader (accept : String) : Except Exc Unit :=
  let a := strToLower accept
  if !strIncludes a "application/json" && !strIncludes a "text/event-stream" then
    .error (.http 406
      "Clients must include application/json or text/event-stream in the Accept header.")
  else .ok ()

/-- Embeds `enforceJsonContent` (src/http-server.ts:202-207). -/
def enforceJsonContent (contentType : String) : Except Exc Unit :=
  if !strIncludes contentType "application/json" then
    .error (.http 415 "Content-Type must be application/json")
  else .ok ()

/-- Embeds `normalizeMessages` (src/http-server.ts:209-228) on the decoded
payload.  The source first re-parses a string body through `JSON.parse`
(src/http-server.ts:211-217); JSON text decoding is outside this model, so
the embedding takes the decoded `payload` the source holds at line 219.  An
array yields its elements, a (non-null) object yields a singleton, and
everything else — including a payload that is still a string after the parse
step — is rejected as a 400 framing error. -/
def normalizeMessages : JsValue → Except Exc (List JsValue)
  | .arr xs => .ok xs
  | .obj fields => .ok [.obj fields]
  | _ => .error (.http 400 "Invalid JSON-RPC payload")

/-! ## Request dispatcher (src/http-server.ts:303-362, 397-418) -/

/-- JSON-RPC error codes used by the dispatcher (`ErrorCode` from the MCP
SDK; standard JSON-RPC values). -/
def errInvalidRequest : Int := -32600

def errMethodNotFound : Int := -32601

def errInvalidParams : Int := -32602

def errInternalError : Int := -32603

/-- Protocol versions advertised by the MCP SDK
(`SUPPORTED_PROTOCOL_VERSIONS` from @modelcontextprotocol/sdk/types.js, an
external collaborator; the concrete strings mirror the SDK, and only
membership matters to the transport). -/
def SUPPORTED_PROTOCOL_VERSIONS : List String :=
  ["2025-03-26", "2024-11-05", "2024-10-07"]

/-- `LATEST_PROTOCOL_VERSION` from the MCP SDK. -/
def LATEST_PROTOCOL_VERSION : String := "2025-03-26"

/-- The static tool enumeration `legalTools.listTools()` returned by
`tools/list`.  The Tool Registry is an external collaborator; its payload is
opaque to the transport layer. -/
def legalToolsList : JsValue :=
  .arr [.obj [("name", .str "legal_think")],
        .obj [("name", .str "legal_ask_followup_question")],
        .obj [("name", .str "legal_attempt_completion")],
        .obj [("name", .str "legal_verify_with_api")]]

/-- Embeds `ensureSession` (src/http-server.ts:357-362). -/
def ensureSession : Option Session → Except Exc Session
  | none => .error (.rpc errInvalidRequest "Request requires an active session")
  | some s => .ok s

/-- Embeds `handleRpcRequest` (src/http-server.ts:303-355).  `callTool` is
the external `legalTools.callTool`, which may resolve with a result value or
reject with an arbitrary exception; `now` is `Date.now()` and `freshId` the
`uuidv4()` drawn by `createSession`.  The JS `switch` on `request.method` is
the if-chain. -/
def handleRpcRequest (callTool : String → JsValue → Except Exc JsValue)
    (now : Nat) (freshId : String) (request : JsValue)
    (session : Option Session) (st : Store) :
    Except Exc (JsValue × Option String) × Store :=
  let method := asStr (objGet request "method")
  if method = "initialize" then
    let out := createSession st now freshId
    let requestedVersion := optChainProp (objGet request "params") "protocolVersion"
    let protocolVersion :=
      match requestedVersion with
      | .str v => if SUPPORTED_PROTOCOL_VERSIONS.contains v then v
                  else LATEST_PROTOCOL_VERSION
      | _ => LATEST_PROTOCOL_VERSION
    let result : JsValue :=
      .obj [("protocolVersion", .str protocolVersion),
            ("capabilities", .obj [("tools", .obj [])]),
            ("serverInfo", .obj [("name", .str "mcp-cerebra-legal-server"),
                                 ("version", .str "2.0.0")])]
    (.ok (result, some out.1.id), out.2)
  else if method = "ping" then
    match ensureSession session with
    | .error e => (.error e, st)
    | .ok currentSession => (.ok (.obj [], none), touchSession st currentSession now)
  else if method = "tools/list" then
    match ensureSession session with
    | .error e => (.error e, st)
    | .ok currentSession =>
      (.ok (.obj [("tools", legalToolsList)], none), touchSession st currentSession now)
  else if method = "tools/call" then
    match ensureSession session with
    | .error e => (.error e, st)
    | .ok currentSession =>
      let st' := touchSession st currentSession now
      match optChainProp (objGet request "params") "name" with
      | .str name =>
        match callTool name (optChainProp (objGet request "params") "arguments") with
        | .ok toolResult => (.ok (toolResult, none), st')
        | .error e => (.error e, st')
      | _ => (.error (.rpc errInvalidParams "Tool name is required"), st')
  else
    (.error (.rpc errMethodNotFound ("Unsupported method: " ++ method)), st)

/-- Payload of a frame: a `result` member or an `error` member. -/
inductive FramePayload where
  | success (result : JsValue)
  | error (code : Int) (message : String)

/-- One JSON-RPC frame written onto the SSE stream by `sendSseMessage`. -/
structure Frame where
  id : JsValue
  payload : FramePayload

instance : Inhabited Frame := ⟨⟨.undefined, .success .undefined⟩⟩

/-- Embeds `createErrorResponse` (src/http-server.ts:397-418): a typed
`RpcError` keeps its code and message; any other exception is replaced by the
opaque internal-error frame. -/
def createErrorResponse (id : JsValue) : Exc → Frame
  | .rpc code message => ⟨id, .error code message⟩
  | _ => ⟨id, .error errInternalError "Internal server error"⟩

/-- One concurrently dispatched task of the POST handler
(src/http-server.ts:147-163): dispatch the request, frame the success with
the request's `id`, and catch every failure into an error frame. -/
def runTask (callTool : String → JsValue → Except Exc JsValue) (now : Nat)
    (freshId : String) (request : JsValue) (session : Option Session)
    (st : Store) : Frame × Option String × Store :=
  match handleRpcRequest callTool now freshId request session st with
  | (.ok out, st') => (⟨objGet request "id", .success out.1⟩, out.2, st')
  | (.error e, st') => (createErrorResponse (objGet request "id") e, none, st')

/-- The fan-out over the batch's requests (src/http-server.ts:145-165),
threading the store and the write-once `Mcp-Session-Id` response header
(`sessionIdResponseSet`).  `freshIds i` is the `uuidv4()` drawn by the
`i`-th task if it creates a session. -/
def runTasksGo (callTool : String → JsValue → Except Exc JsValue) (now : Nat)
    (freshIds : Nat → String) (session : Option Session) :
    List JsValue → Nat → Store → Option String →
    List Frame × Option String × Store
  | [], _, st, hdr => ([], hdr, st)
  | r :: rest, i, st, hdr =>
    let out := runTask callTool now (freshIds i) r session st
    let hdr' := match hdr, out.2.1 with
      | none, some nid => some nid
      | _, _ => hdr
    let tail := runTasksGo callTool now freshIds session rest (i + 1) out.2.2 hdr'
    (out.1 :: tail.1, tail.2.1, tail.2.2)

/-- All tasks of one POST call, in request order (the frames each task emits
are fixed; the completion order in which they appear on the wire is a
permutation quantified over in the theorems). -/
def runTasks (callTool : String → JsValue → Except Exc JsValue) (now : Nat)
    (freshIds : Nat → String) (requests : List JsValue)
    (session : Option Session) (st : Store) :
    List Frame × Option String × Store :=
  runTasksGo callTool now freshIds session requests 0 st none

/-! ## The POST endpoint (src/http-server.ts:110-170, 420-428) -/

/-- Observable outcome of one POST call. -/
inductive HandlerResult where
  | error (status : Nat) (message : String)
  | accepted
  | stream (sessionHeader : Option String) (frames : List Frame)

/-- Embeds `handleHttpError` (src/http-server.ts:420-428): an `HttpError`
keeps its status; every other exception becomes a plain 500. -/
def handleHttpError : Exc → HandlerResult
  | .http status message => .error status message
  | _ => .error 500 "Internal server error"

/-- Requests-phase of the POST handler (src/http-server.ts:125-166): the
202 short-circuit, the single-initialize batch rule, the session
requirement, and the streamed fan-out. -/
def postAfterNotifications (callTool : String → JsValue → Except Exc JsValue)
    (now : Nat) (freshIds : Nat → String) (headerSessionId : Option String)
    (parts : Partition) (st : Store) : HandlerResult × Store :=
  if parts.requests.length = 0 then (.accepted, st)
  else if (parts.requests.any fun r => asStr (objGet r "method") == "initialize") ∧
      1 < parts.requests.length then
    (handleHttpError (.http 400 "Initialize request must be sent separately."), st)
  else if parts.requests.any fun r => !(asStr (objGet r "method") == "initialize") then
    match requireSessionHeader headerSessionId with
    | .error e => (handleHttpError e, st)
    | .ok sid =>
      match loadSession st sid with
      | .error e => (handleHttpError e, st)
      | .ok session =>
        let out := runTasks callTool now freshIds parts.requests (some session) st
        (.stream out.2.1 out.1, out.2.2)
  else
    let session := headerSessionId.bind (lookup st)
    let out := runTasks callTool now freshIds parts.requests session st
    (.stream out.2.1 out.1, out.2.2)

/-- Embeds the `app.post(MCP_ENDPOINT)` handler (src/http-server.ts:110-170)
end to end: header validation, body normalization, partitioning, synchronous
notification processing, then the requests phase; every exception escaping
before the stream opens lands in `handleHttpError`, and store mutations made
before the throw persist (the JS `sessions` map is global). -/
def postHandler (callTool : String → JsValue → Except Exc JsValue) (now : Nat)
    (freshIds : Nat → String) (accept contentType : String)
    (headerSessionId : Option String) (body : JsValue) (st : Store) :
    HandlerResult × Store :=
  match enforceAcceptHeader accept with
  | .error e => (handleHttpError e, st)
  | .ok _ =>
  match enforceJsonContent contentType with
  | .error e => (handleHttpError e, st)
  | .ok _ =>
  match normalizeMessages body with
  | .error e => (handleHttpError e, st)
  | .ok messages =>
  if messages.length = 0 then
    (handleHttpError (.http 400 "Empty JSON-RPC payload"), st)
  else
  match partitionMessages messages with
  | .error e => (handleHttpError e, st)
  | .ok parts =>
  match processNotifications headerSessionId parts.notifications st now with
  | (.error e, st1) => (handleHttpError e, st1)
  | (.ok _, st1) => postAfterNotifications callTool now freshIds headerSessionId parts st1

/-! ## Frame-level lemmas about the concurrent fan-out -/

theorem handleRpcRequest_fst (callTool : String → JsValue → Except Exc JsValue)
    (now : Nat) (freshId : String) (request : JsValue)
    (session : Option Session) (st st' : Store) :
    (handleRpcRequest callTool now freshId request session st).1 =
    (handleRpcRequest callTool now freshId request session st').1 := by
  unfold handleRpcRequest
  dsimp only
  split_ifs <;> cases session <;>
    (simp only [ensureSession]; (try rfl)) <;>
    (split <;> (try split) <;> rfl)

theorem runTask_eq (callTool : String → JsValue → Except Exc JsValue)
    (now : Nat) (freshId : String) (request : JsValue)
    (session : Option Session) (st : Store) :
    runTask callTool now freshId request session st =
      ((match (handleRpcRequest callTool now freshId request session st).1 with
        | .ok out => (⟨objGet request "id", .success out.1⟩ : Frame)
        | .error e => createErrorResponse (objGet request "id") e),
       (match (handleRpcRequest callTool now freshId request session st).1 with
        | .ok out => out.2
        | .error _ => none),
       (handleRpcRequest callTool now freshId request session st).2) := by
  unfold runTask
  rcases h : handleRpcRequest callTool now freshId request session st with ⟨res, st2⟩
  cases res <;> simp

/-- The frame one dispatched task writes for its request; it depends only on
the request, the snapshot session, the tool behaviour and the clock — not on
the interleaving of the sibling tasks' store updates. -/
def taskFrame (callTool : String → JsValue → Except Exc JsValue) (now : Nat)
    (freshId : String) (request : JsValue) (session : Option Session) : Frame :=
  match (handleRpcRequest callTool now freshId request session []).1 with
  | .ok out => ⟨objGet request "id", .success out.1⟩
  | .error e => createErrorResponse (objGet request "id") e

theorem runTask_fst (callTool : String → JsValue → Except Exc JsValue)
    (now : Nat) (freshId : String) (request : JsValue)
    (session : Option Session) (st : Store) :
    (runTask callTool now freshId request session st).1 =
      taskFrame callTool now freshId request session := by
  rw [runTask_eq]
  unfold taskFrame
  rw [handleRpcRequest_fst callTool now freshId request session st []]

/-- Request-order list of the frames of a batch. -/
def framesOf (callTool : String → JsValue → Except Exc JsValue) (now : Nat)
    (freshIds : Nat → String) (session : Option Session) :
    List JsValue → Nat → List Frame
  | [], _ => []
  | r :: rest, i =>
    taskFrame callTool now (freshIds i) r session ::
      framesOf callTool now freshIds session rest (i + 1)

theorem runTasksGo_fst (callTool : String → JsValue → Except Exc JsValue)
    (now : Nat) (freshIds : Nat → String) (session : Option Session)
    (reqs : List JsValue) :
    ∀ i st hdr, (runTasksGo callTool now freshIds session reqs i st hdr).1 =
      framesOf callTool now freshIds session reqs i := by
  induction reqs with
  | nil => intro i st hdr; rfl
  | cons r rest ih =>
    intro i st hdr
    simp only [runTasksGo, framesOf, runTask_fst]
    exact congrArg _ (ih _ _ _)

theorem framesOf_length (callTool : String → JsValue → Except Exc JsValue)
    (now : Nat) (freshIds : Nat → String) (session : Option Session)
    (reqs : List JsValue) :
    ∀ i, (framesOf callTool now freshIds session reqs i).length = reqs.length := by
  induction reqs with
  | nil => intro i; rfl
  | cons r rest ih => intro i; simp [framesOf, ih]

theorem framesOf_getD (callTool : String → JsValue → Except Exc JsValue)
    (now : Nat) (freshIds : Nat → String) (session : Option Session)
    (reqs : List JsValue) :
    ∀ i k, k < reqs.length →
      (framesOf callTool now freshIds session reqs i).getD k default =
        taskFrame callTool now (freshIds (i + k)) (reqs.getD k .undefined) session := by
  induction reqs with
  | nil => intro i k hk; simp at hk
  | cons r rest ih =>
    intro i k hk
    cases k with
    | zero => simp [framesOf]
    | succ k =>
      simp only [framesOf, List.getD_cons_succ]
      have := ih (i + 1) k (by simpa using Nat.lt_of_succ_lt_succ hk)
      rw [this, show i + 1 + k = i + (k + 1) by omega]

theorem taskFrame_id (callTool : String → JsValue → Except Exc JsValue)
    (now : Nat) (freshId : String) (request : JsValue) (session : Option Session) :
    (taskFrame callTool now freshId request session).id = objGet request "id" := by
  unfold taskFrame
  split
  · rfl
  · rename_i e _
    cases e <;> rfl

theorem taskFrame_of_error (callTool : String → JsValue → Except Exc JsValue)
    (now : Nat) (freshId : String) (request : JsValue) (session : Option Session)
    (st : Store) (e : Exc)
    (he : (handleRpcRequest callTool now freshId request session st).1 = .error e) :
    taskFrame callTool now freshId request session =
      createErrorResponse (objGet request "id") e := by
  unfold taskFrame
  rw [← handleRpcRequest_fst callTool now freshId request session st [], he]

/-- Claim C5: a dispatched task whose request fails with any exception is
caught at the task boundary and framed as a JSON-RPC error on the stream — a
typed `RpcError` keeps its code and message, every other exception becomes
the opaque internal-error frame — while every sibling request of the batch
still gets exactly one frame carrying its own identifier. -/
theorem c5_task_error_isolation (callTool : String → JsValue → Except Exc JsValue)
    (now : Nat) (freshIds : Nat → String) (session : Option Session) (st : Store)
    (reqs : List JsValue) (k : Nat) (hk : k < reqs.length) (e : Exc)
    (he : (handleRpcRequest callTool now (freshIds k) (reqs.getD k .undefined)
             session st).1 = .error e) :
    (runTasks callTool now freshIds reqs session st).1.length = reqs.length ∧
    (runTasks callTool now freshIds reqs session st).1.getD k default =
      createErrorResponse (objGet (reqs.getD k .undefined) "id") e ∧
    (∀ code msg, e = .rpc code msg →
       (runTasks callTool now freshIds reqs session st).1.getD k default =
         ⟨objGet (reqs.getD k .undefined) "id", .error code msg⟩) ∧
    ((∀ code msg, e ≠ .rpc code msg) →
       (runTasks callTool now freshIds reqs session st).1.getD k default =
         ⟨objGet (reqs.getD k .undefined) "id",
          .error errInternalError "Internal server error"⟩) ∧
    (∀ j, j < reqs.length →
       ((runTasks callTool now freshIds reqs session st).1.getD j default).id =
         objGet (reqs.getD j .undefined) "id") := by
  have hfst : (runTasks callTool now freshIds reqs session st).1 =
      framesOf callTool now freshIds session reqs 0 :=
    runTasksGo_fst callTool now freshIds session reqs 0 st none
  have hget := framesOf_getD callTool now freshIds session reqs 0 k hk
  simp only [Nat.zero_add] at hget
  have hframe := taskFrame_of_error callTool now (freshIds k)
    (reqs.getD k .undefined) session st e he
  refine ⟨?_, ?_, ?_, ?_, ?_⟩
  · rw [hfst]; exact framesOf_length callTool now freshIds session reqs 0
  · rw [hfst, hget, hframe]
  · intro code msg hrpc
    rw [hfst, hget, hframe, hrpc]
    rfl
  · intro hnot
    rw [hfst, hget, hframe]
    cases e with
    | rpc code msg => exact absurd rfl (hnot code msg)
    | http s m => rfl
    | typeError m => rfl
    | other m => rfl
  · intro j hj
    have hgj := framesOf_getD callTool now freshIds session reqs 0 j hj
    simp only [Nat.zero_add] at hgj
    rw [hfst, hgj]
    exact taskFrame_id callTool now (freshIds j) (reqs.getD j .undefined) session

/-- Witness for C5: one batch of two tool calls where the second rejects with
an untyped exception whose text never reaches the stream. -/
theorem c5_task_error_isolation_witness :
    let req1 : JsValue := .obj [("jsonrpc", .str "2.0"), ("id", .num 1),
      ("method", .str "tools/call"), ("params", .obj [("name", .str "legal_think")])]
    let req2 : JsValue := .obj [("jsonrpc", .str "2.0"), ("id", .num 2),
      ("method", .str "tools/call"), ("params", .obj [("name", .str "legal_think")])]
    let tool : String → JsValue → Except Exc JsValue := fun _ args =>
      match args with
      | .undefined => .error (.other "ECONNREFUSED legal-api.internal:443")
      | _ => .ok (.obj [("content", .arr [])])
    let sess : Session := ⟨"s1", 0, 0, true⟩
    let out := (runTasks tool 5 (fun _ => "u") [req1, req2] (some sess) [sess]).1
    out.length = 2 ∧
    out.getD 1 default =
      ⟨.num 2, .error errInternalError "Internal server error"⟩ ∧
    (out.getD 0 default).id = .num 1 := by
  intro req1 req2 tool sess out
  have h := c5_task_error_isolation tool 5 (fun _ => "u") (some sess) [sess]
    [req1, req2] 1 (by decide) (.other "ECONNREFUSED legal-api.internal:443") (by rfl)
  refine ⟨h.1, ?_, h.2.2.2.2 0 (by decide)⟩
  exact h.2.2.2.1 (fun code msg hne => by simp at hne)

/-- Claim C6: however the concurrent tasks of a batch complete, the emitted
stream is a permutation of the request-order frame list, so it contains
exactly one frame per request, and the frame at position `k` of the
request-order list carries the identifier of request `k`. -/
theorem c6_stream_frame_correlation (callTool : String → JsValue → Except Exc JsValue)
    (now : Nat) (freshIds : Nat → String) (session : Option Session) (st : Store)
    (reqs : List JsValue) (stream : List Frame)
    (hperm : stream.Perm (runTasks callTool now freshIds reqs session st).1) :
    stream.length = reqs.length ∧
    ∀ k, k < reqs.length →
      ((runTasks callTool now freshIds reqs session st).1.getD k default).id =
        objGet (reqs.getD k .undefined) "id" := by
  have hfst : (runTasks callTool now freshIds reqs session st).1 =
      framesOf callTool now freshIds session reqs 0 :=
    runTasksGo_fst callTool now freshIds session reqs 0 st none
  constructor
  · rw [hperm.length_eq, hfst]
    exact framesOf_length callTool now freshIds session reqs 0
  · intro k hk
    have hg := framesOf_getD callTool now freshIds session reqs 0 k hk
    simp only [Nat.zero_add] at hg
    rw [hfst, hg]
    exact taskFrame_id callTool now (freshIds k) (reqs.getD k .undefined) session

/-- Witness for C6: three requests, streamed in reversed completion order,
still give three frames correlated by identifier. -/
theorem c6_stream_frame_correlation_witness :
    let mk := fun (i : Int) => JsValue.obj [("jsonrpc", .str "2.0"),
      ("id", .num i), ("method", .str "ping")]
    let tool : String → JsValue → Except Exc JsValue := fun _ _ => .ok (.obj [])
    let sess : Session := ⟨"s1", 0, 0, true⟩
    let frames := (runTasks tool 5 (fun _ => "u") [mk 10, mk 11, mk 12]
      (some sess) [sess]).1
    frames.reverse.length = 3 ∧
    (frames.getD 0 default).id = .num 10 ∧
    (frames.getD 1 default).id = .num 11 ∧
    (frames.getD 2 default).id = .num 12 := by
  intro mk tool sess frames
  have h := c6_stream_frame_correlation tool 5 (fun _ => "u") (some sess) [sess]
    [mk 10, mk 11, mk 12] frames.reverse (List.reverse_perm frames)
  exact ⟨h.1, h.2 0 (by decide), h.2 1 (by decide), h.2 2 (by decide)⟩

theorem getField_head (k : String) (v : JsValue) (rest : List (String × JsValue)) :
    getField ((k, v) :: rest) k = some v := by
  simp [getField, List.find?]

/-- Claim C7: the handshake echoes the client-requested protocol version
exactly when it is a string in the supported set, and falls back to the
latest supported version otherwise (absent, non-string, or unsupported). -/
theorem c7_version_negotiation (callTool : String → JsValue → Except Exc JsValue)
    (now : Nat) (freshId : String) (request : JsValue) (session : Option Session)
    (st : Store) (hm : asStr (objGet request "method") = "initialize") :
    ∃ fields sid st',
      handleRpcRequest callTool now freshId request session st =
        (.ok (.obj fields, some sid), st') ∧
      (∀ v, optChainProp (objGet request "params") "protocolVersion" = .str v →
         v ∈ SUPPORTED_PROTOCOL_VERSIONS →
         getField fields "protocolVersion" = some (.str v)) ∧
      (∀ v, optChainProp (objGet request "params") "protocolVersion" = .str v →
         v ∉ SUPPORTED_PROTOCOL_VERSIONS →
         getField fields "protocolVersion" = some (.str LATEST_PROTOCOL_VERSION)) ∧
      ((∀ v, optChainProp (objGet request "params") "protocolVersion" ≠ .str v) →
         getField fields "protocolVersion" = some (.str LATEST_PROTOCOL_VERSION)) := by
  unfold handleRpcRequest
  dsimp only
  rw [if_pos hm]
  refine ⟨_, _, _, rfl, ?_, ?_, ?_⟩
  · intro v hv hmem
    rw [getField_head, hv]
    dsimp only
    have hc : SUPPORTED_PROTOCOL_VERSIONS.contains v = true :=
      List.elem_eq_true_of_mem hmem
    rw [if_pos hc]
  · intro v hv hmem
    rw [getField_head, hv]
    dsimp only
    have hc : SUPPORTED_PROTOCOL_VERSIONS.contains v = false := by
      cases h : SUPPORTED_PROTOCOL_VERSIONS.contains v with
      | false => rfl
      | true => exact absurd (List.mem_of_elem_eq_true h) hmem
    rw [if_neg (by simp [hc, hmem])]
  · intro hnone
    rw [getField_head]
    cases hv : optChainProp (objGet request "params") "protocolVersion" with
    | str v => exact absurd hv (hnone v)
    | undefined => rfl
    | null => rfl
    | bool b => rfl
    | num n => rfl
    | arr xs => rfl
    | obj fs => rfl

/-- Witness for C7: an unsupported requested version string falls back to the
latest supported version, which is then echoed when requested directly. -/
theorem c7_version_negotiation_witness :
    let tool : String → JsValue → Except Exc JsValue := fun _ _ => .ok (.obj [])
    let req : JsValue := .obj [("jsonrpc", .str "2.0"), ("id", .num 1),
      ("method", .str "initialize"),
      ("params", .obj [("protocolVersion", .str "1999-01-01")])]
    ∃ fields sid st',
      handleRpcRequest tool 0 "u1" req none [] = (.ok (.obj fields, some sid), st') ∧
      getField fields "protocolVersion" = some (.str LATEST_PROTOCOL_VERSION) := by
  intro tool req
  obtain ⟨fields, sid, st', heq, _, hfall, _⟩ :=
    c7_version_negotiation tool 0 "u1" req none [] (by rfl)
  exact ⟨fields, sid, st', heq, hfall "1999-01-01" (by rfl) (by decide)⟩

/-! ## Lemmas about notification processing and the POST pipeline -/

theorem processNotifIter_id (now : Nat) (ns : List JsValue) :
    ∀ s st, (processNotifIter now ns s st).1.id = s.id := by
  induction ns with
  | nil => intro s st; rfl
  | cons n rest ih =>
    intro s st
    simp only [processNotifIter]
    split_ifs <;> exact ih _ _

theorem processNotifIter_lookup (now : Nat) (ns : List JsValue) :
    ∀ s st, lookup st s.id = some s →
      lookup (processNotifIter now ns s st).2 s.id =
        some (processNotifIter now ns s st).1 := by
  induction ns with
  | nil => intro s st h; exact h
  | cons n rest ih =>
    intro s st h
    simp only [processNotifIter]
    split_ifs with h1 h2
    · exact ih _ _ (lookup_storeSet_self st s.id s _ h rfl)
    · exact ih _ _ (lookup_storeSet_self st s.id s _ h rfl)
    · exact ih _ _ h

theorem processNotifIter_preserve (now : Nat) (ns : List JsValue) :
    ∀ s st, s.initialized = true → s.lastActivity = now →
      (processNotifIter now ns s st).1.initialized = true ∧
      (processNotifIter now ns s st).1.lastActivity = now := by
  induction ns with
  | nil => intro s st h1 h2; exact ⟨h1, h2⟩
  | cons n rest ih =>
    intro s st h1 h2
    simp only [processNotifIter]
    split_ifs <;> exact ih _ _ (by simp [h1]) (by simp [h2])

theorem processNotifIter_initialized (now : Nat) (ns : List JsValue) :
    ∀ s st, (∃ n ∈ ns, asStr (objGet n "method") = "initialized") →
      (processNotifIter now ns s st).1.initialized = true ∧
      (processNotifIter now ns s st).1.lastActivity = now := by
  induction ns with
  | nil =>
    intro s st hex
    obtain ⟨n, hn, _⟩ := hex
    simp at hn
  | cons m rest ih =>
    intro s st hex
    obtain ⟨n, hn, hmeth⟩ := hex
    simp only [processNotifIter]
    rcases List.mem_cons.mp hn with heq | hmem
    · rw [if_pos (heq ▸ hmeth)]
      exact processNotifIter_preserve now rest _ _ rfl rfl
    · split_ifs with h1 h2
      · exact processNotifIter_preserve now rest _ _ rfl rfl
      · exact ih _ _ ⟨n, hmem, hmeth⟩
      · exact ih _ _ ⟨n, hmem, hmeth⟩

theorem processNotifications_empty (hdr : Option String) (st : Store) (now : Nat) :
    processNotifications hdr [] st now = (.ok (), st) := rfl

theorem processNotifications_noHeader (ns : List JsValue) (st : Store) (now : Nat)
    (hne : ns ≠ []) :
    processNotifications none ns st now =
      (.error (.http 400 "Missing Mcp-Session-Id header"), st) := by
  unfold processNotifications
  rw [if_neg (by simpa using hne)]
  rfl

theorem processNotifications_unknown (sid : String) (ns : List JsValue)
    (st : Store) (now : Nat) (hne : ns ≠ []) (hlk : lookup st sid = none) :
    processNotifications (some sid) ns st now =
      (.error (.http 404 "Session not found"), st) := by
  unfold processNotifications
  rw [if_neg (by simpa using hne)]
  simp [requireSessionHeader, loadSession, hlk]

theorem processNotifications_live (sid : String) (ns : List JsValue)
    (st : Store) (now : Nat) (s : Session) (hlk : lookup st sid = some s) :
    processNotifications (some sid) ns st now =
      (.ok (), (processNotifIter now ns s st).2) := by
  unfold processNotifications
  by_cases h : ns.length = 0
  · have hnil : ns = [] := List.length_eq_zero.mp h
    subst hnil
    simp [processNotifIter]
  · rw [if_neg h]
    simp [requireSessionHeader, loadSession, hlk]

theorem postHandler_eq (callTool : String → JsValue → Except Exc JsValue)
    (now : Nat) (freshIds : Nat → String) (accept ct : String)
    (hdr : Option String) (body : JsValue) (st : Store)
    (msgs : List JsValue) (parts : Partition)
    (hacc : enforceAcceptHeader accept = .ok ())
    (hct : enforceJsonContent ct = .ok ())
    (hnorm : normalizeMessages body = .ok msgs)
    (hlen : msgs.length ≠ 0)
    (hpart : partitionMessages msgs = .ok parts) :
    postHandler callTool now freshIds accept ct hdr body st =
      (match processNotifications hdr parts.notifications st now with
       | (.error e, st1) => (handleHttpError e, st1)
       | (.ok _, st1) =>
         postAfterNotifications callTool now freshIds hdr parts st1) := by
  unfold postHandler
  simp only [hacc, hct, hnorm, hpart, if_neg hlen]

theorem postHandler_notifsErr (callTool : String → JsValue → Except Exc JsValue)
    (now : Nat) (freshIds : Nat → String) (accept ct : String)
    (hdr : Option String) (body : JsValue) (st : Store)
    (msgs : List JsValue) (parts : Partition)
    (hacc : enforceAcceptHeader accept = .ok ())
    (hct : enforceJsonContent ct = .ok ())
    (hnorm : normalizeMessages body = .ok msgs)
    (hlen : msgs.length ≠ 0)
    (hpart : partitionMessages msgs = .ok parts)
    (e : Exc) (st1 : Store)
    (hpn : processNotifications hdr parts.notifications st now = (.error e, st1)) :
    postHandler callTool now freshIds accept ct hdr body st =
      (handleHttpError e, st1) := by
  rw [postHandler_eq callTool now freshIds accept ct hdr body st msgs parts
    hacc hct hnorm hlen hpart, hpn]

theorem postHandler_notifsOk (callTool : String → JsValue → Except Exc JsValue)
    (now : Nat) (freshIds : Nat → String) (accept ct : String)
    (hdr : Option String) (body : JsValue) (st : Store)
    (msgs : List JsValue) (parts : Partition)
    (hacc : enforceAcceptHeader accept = .ok ())
    (hct : enforceJsonContent ct = .ok ())
    (hnorm : normalizeMessages body = .ok msgs)
    (hlen : msgs.length ≠ 0)
    (hpart : partitionMessages msgs = .ok parts)
    (st1 : Store)
    (hpn : processNotifications hdr parts.notifications st now = (.ok (), st1)) :
    postHandler callTool now freshIds accept ct hdr body st =
      postAfterNotifications callTool now freshIds hdr parts st1 := by
  rw [postHandler_eq callTool now freshIds accept ct hdr body st msgs parts
    hacc hct hnorm hlen hpart, hpn]

theorem requests_mem_msgs (msgs : List JsValue) (parts : Partition)
    (hpart : partitionMessages msgs = .ok parts) :
    ∀ r ∈ parts.requests, r ∈ msgs := by
  intro r hr
  have h := partitionGo_ok msgs ⟨[], [], []⟩ parts hpart
  simp only [List.nil_append] at h
  rw [h.1] at hr
  exact (List.mem_filter.mp hr).1

theorem notifications_mem_msgs (msgs : List JsValue) (parts : Partition)
    (hpart : partitionMessages msgs = .ok parts) :
    ∀ n ∈ parts.notifications, n ∈ msgs := by
  intro n hn
  have h := partitionGo_ok msgs ⟨[], [], []⟩ parts hpart
  simp only [List.nil_append] at h
  rw [h.2.1] at hn
  exact (List.mem_filter.mp hn).1

theorem postAfterNotifications_mixedInit
    (callTool : String → JsValue → Except Exc JsValue) (now : Nat)
    (freshIds : Nat → String) (hdr : Option String) (parts : Partition)
    (st : Store) (hne : parts.requests ≠ [])
    (hmix : ((parts.requests.any fun r => asStr (objGet r "method") == "initialize") = true) ∧
      1 < parts.requests.length) :
    postAfterNotifications callTool now freshIds hdr parts st =
      (.error 400 "Initialize request must be sent separately.", st) := by
  unfold postAfterNotifications
  rw [if_neg (by simpa using hne), if_pos hmix]
  rfl

theorem postAfterNotifications_noSession
    (callTool : String → JsValue → Except Exc JsValue) (now : Nat)
    (freshIds : Nat → String) (hdr : Option String) (parts : Partition)
    (st : Store) (hne : parts.requests ≠ [])
    (hmix : ¬(((parts.requests.any fun r => asStr (objGet r "method") == "initialize") = true) ∧
      1 < parts.requests.length))
    (hreq : (parts.requests.any fun r => !(asStr (objGet r "method") == "initialize")) = true) :
    postAfterNotifications callTool now freshIds hdr parts st =
      (match requireSessionHeader hdr with
       | .error e => (handleHttpError e, st)
       | .ok sid =>
         match loadSession st sid with
         | .error e => (handleHttpError e, st)
         | .ok session =>
           let out := runTasks callTool now freshIds parts.requests (some session) st
           (.stream out.2.1 out.1, out.2.2)) := by
  unfold postAfterNotifications
  rw [if_neg (by simpa using hne), if_neg hmix, if_pos hreq]

/-- Counterexample to C2 as stated: a batch mixing the handshake with a ping,
sent with a session identifier that resolves to no live session, is rejected
with HTTP 400 (the batch-composition check fires first), not with the 404 the
claim requires for an unresolvable identifier. -/
theorem c2_counterexample :
    postHandler (fun _ _ => .ok .undefined) 0 (fun _ => "u")
      "application/json" "application/json" (some "ghost")
      (.arr [.obj [("jsonrpc", .str "2.0"), ("id", .num 1), ("method", .str "initialize")],
             .obj [("jsonrpc", .str "2.0"), ("id", .num 2), ("method", .str "ping")]])
      [] =
      (.error 400 "Initialize request must be sent separately.", []) ∧
    (400 : Nat) ≠ 404 := by
  exact ⟨rfl, by decide⟩

/-- Claim C2 (amended): for every batch holding at least one non-handshake
Request, a call with no session header fails with HTTP 400, and a call whose
supplied header does not resolve to a live session fails with HTTP 404 —
except that a batch with no notifications that also mixes a handshake Request
with another Request hits the batch-composition check first and fails 400; in
every such case the call fails before any Request is dispatched and the
Session Store is unchanged. -/
theorem c2_session_required (callTool : String → JsValue → Except Exc JsValue)
    (now : Nat) (freshIds : Nat → String) (accept ct : String)
    (hdr : Option String) (body : JsValue) (st : Store)
    (msgs : List JsValue) (parts : Partition)
    (hacc : enforceAcceptHeader accept = .ok ())
    (hct : enforceJsonContent ct = .ok ())
    (hnorm : normalizeMessages body = .ok msgs)
    (hpart : partitionMessages msgs = .ok parts)
    (hreq : ∃ r ∈ parts.requests, asStr (objGet r "method") ≠ "initialize") :
    (hdr = none →
       ∃ m, postHandler callTool now freshIds accept ct hdr body st =
         (.error 400 m, st)) ∧
    (∀ sid, hdr = some sid → lookup st sid = none →
       ((parts.notifications ≠ [] ∨
         ¬(((parts.requests.any fun r => asStr (objGet r "method") == "initialize") = true) ∧
           1 < parts.requests.length)) →
          postHandler callTool now freshIds accept ct hdr body st =
            (.error 404 "Session not found", st)) ∧
       ((parts.notifications = [] ∧
         ((parts.requests.any fun r => asStr (objGet r "method") == "initialize") = true) ∧
           1 < parts.requests.length) →
          postHandler callTool now freshIds accept ct hdr body st =
            (.error 400 "Initialize request must be sent separately.", st))) := by
  obtain ⟨r, hr, hrne⟩ := hreq
  have hmem : r ∈ msgs := requests_mem_msgs msgs parts hpart r hr
  have hlen : msgs.length ≠ 0 := by
    intro h0
    rw [List.length_eq_zero] at h0
    subst h0
    simp at hmem
  have hne : parts.requests ≠ [] := by
    intro h0
    rw [h0] at hr
    simp at hr
  have hany : (parts.requests.any fun r => !(asStr (objGet r "method") == "initialize")) = true := by
    refine List.any_eq_true.mpr ⟨r, hr, ?_⟩
    simpa using hrne
  constructor
  · rintro rfl
    by_cases hn : parts.notifications = []
    · have hok := postHandler_notifsOk callTool now freshIds accept ct none body st
        msgs parts hacc hct hnorm hlen hpart st
        (by rw [hn]; exact processNotifications_empty none st now)
      by_cases hmix : ((parts.requests.any fun r => asStr (objGet r "method") == "initialize") = true) ∧
          1 < parts.requests.length
      · exact ⟨"Initialize request must be sent separately.",
          hok.trans (postAfterNotifications_mixedInit callTool now freshIds none
            parts st hne hmix)⟩
      · refine ⟨"Missing Mcp-Session-Id header", ?_⟩
        rw [hok, postAfterNotifications_noSession callTool now freshIds none
          parts st hne hmix hany]
        rfl
    · refine ⟨"Missing Mcp-Session-Id header", ?_⟩
      exact postHandler_notifsErr callTool now freshIds accept ct none body st
        msgs parts hacc hct hnorm hlen hpart _ st
        (processNotifications_noHeader _ _ _ hn)
  · rintro sid rfl hlk
    have h404 : parts.notifications ≠ [] →
        postHandler callTool now freshIds accept ct (some sid) body st =
          (.error 404 "Session not found", st) := by
      intro hn
      exact postHandler_notifsErr callTool now freshIds accept ct (some sid) body st
        msgs parts hacc hct hnorm hlen hpart _ st
        (processNotifications_unknown sid _ st now hn hlk)
    constructor
    · intro hcase
      by_cases hn : parts.notifications = []
      · have hmix : ¬(((parts.requests.any fun r => asStr (objGet r "method") == "initialize") = true) ∧
            1 < parts.requests.length) := by
          rcases hcase with hn' | hmix'
          · exact absurd hn hn'
          · exact hmix'
        have hok := postHandler_notifsOk callTool now freshIds accept ct (some sid)
          body st msgs parts hacc hct hnorm hlen hpart st
          (by rw [hn]; exact processNotifications_empty (some sid) st now)
        rw [hok, postAfterNotifications_noSession callTool now freshIds (some sid)
          parts st hne hmix hany]
        simp [requireSessionHeader, loadSession, hlk, handleHttpError]
      · exact h404 hn
    · rintro ⟨hn, hmix⟩
      have hok := postHandler_notifsOk callTool now freshIds accept ct (some sid)
        body st msgs parts hacc hct hnorm hlen hpart st
        (by rw [hn]; exact processNotifications_empty (some sid) st now)
      exact hok.trans (postAfterNotifications_mixedInit callTool now freshIds
        (some sid) parts st hne hmix)

/-- Witness for C2 (amended) at a concrete single-ping batch: with no header
the call fails 400; with an unknown header it fails 404; the store (one
unrelated live session) is untouched. -/
theorem c2_session_required_witness :
    let tool : String → JsValue → Except Exc JsValue := fun _ _ => .ok (.obj [])
    let body : JsValue := .arr [.obj [("jsonrpc", .str "2.0"), ("id", .num 2),
      ("method", .str "ping")]]
    let sess : Session := ⟨"live", 0, 0, true⟩
    (∃ m, postHandler tool 0 (fun _ => "u") "application/json" "application/json"
        none body [sess] = (.error 400 m, [sess])) ∧
    postHandler tool 0 (fun _ => "u") "application/json" "application/json"
        (some "ghost") body [sess] = (.error 404 "Session not found", [sess]) := by
  intro tool body sess
  constructor
  · exact (c2_session_required tool 0 (fun _ => "u") "application/json"
      "application/json" none body [sess]
      [.obj [("jsonrpc", .str "2.0"), ("id", .num 2), ("method", .str "ping")]]
      ⟨[.obj [("jsonrpc", .str "2.0"), ("id", .num 2), ("method", .str "ping")]], [], []⟩
      rfl rfl rfl rfl
      ⟨.obj [("jsonrpc", .str "2.0"), ("id", .num 2), ("method", .str "ping")],
        by simp, by decide⟩).1 rfl
  · exact ((c2_session_required tool 0 (fun _ => "u") "application/json"
      "application/json" (some "ghost") body [sess]
      [.obj [("jsonrpc", .str "2.0"), ("id", .num 2), ("method", .str "ping")]]
      ⟨[.obj [("jsonrpc", .str "2.0"), ("id", .num 2), ("method", .str "ping")]], [], []⟩
      rfl rfl rfl rfl
      ⟨.obj [("jsonrpc", .str "2.0"), ("id", .num 2), ("method", .str "ping")],
        by simp, by decide⟩).2
      "ghost" rfl rfl).1 (.inr (by decide))

/-- Counterexample to C3 as stated: a batch carrying an `initialized`
notification together with a handshake Request and a ping Request, sent with
an unknown session identifier, is rejected with HTTP 404 (the notifications'
session check fires before the batch-composition check), not with the 400
BadRequest the claim requires for every handshake-plus-other batch. -/
theorem c3_counterexample :
    postHandler (fun _ _ => .ok .undefined) 0 (fun _ => "u")
      "application/json" "application/json" (some "ghost")
      (.arr [.obj [("jsonrpc", .str "2.0"), ("method", .str "initialized")],
             .obj [("jsonrpc", .str "2.0"), ("id", .num 1), ("method", .str "initialize")],
             .obj [("jsonrpc", .str "2.0"), ("id", .num 2), ("method", .str "ping")]])
      [] =
      (.error 404 "Session not found", []) ∧
    (404 : Nat) ≠ 400 := by
  exact ⟨rfl, by decide⟩

/-- Claim C3 (amended): a batch whose Requests mix the handshake with at
least one other Request is always rejected before any Request executes: with
HTTP 400 (`Initialize request must be sent separately.`) when the batch
carries no notifications or its notifications pass the session check against
a live session, with 400 (missing header) when notifications are present and
no session header was sent, and with 404 when notifications are present and
the header does not resolve. -/
theorem c3_handshake_exclusive (callTool : String → JsValue → Except Exc JsValue)
    (now : Nat) (freshIds : Nat → String) (accept ct : String)
    (hdr : Option String) (body : JsValue) (st : Store)
    (msgs : List JsValue) (parts : Partition)
    (hacc : enforceAcceptHeader accept = .ok ())
    (hct : enforceJsonContent ct = .ok ())
    (hnorm : normalizeMessages body = .ok msgs)
    (hpart : partitionMessages msgs = .ok parts)
    (hmix : ((parts.requests.any fun r => asStr (objGet r "method") == "initialize") = true) ∧
      1 < parts.requests.length) :
    (parts.notifications = [] →
       postHandler callTool now freshIds accept ct hdr body st =
         (.error 400 "Initialize request must be sent separately.", st)) ∧
    (∀ sid s, hdr = some sid → lookup st sid = some s →
       postHandler callTool now freshIds accept ct hdr body st =
         (.error 400 "Initialize request must be sent separately.",
          (processNotifIter now parts.notifications s st).2)) ∧
    (hdr = none →
       ∃ m, postHandler callTool now freshIds accept ct hdr body st =
         (.error 400 m, st)) ∧
    (∀ sid, hdr = some sid → lookup st sid = none → parts.notifications ≠ [] →
       postHandler callTool now freshIds accept ct hdr body st =
         (.error 404 "Session not found", st)) := by
  have hne : parts.requests ≠ [] := by
    intro h0
    rw [h0] at hmix
    simp at hmix
  have hlen : msgs.length ≠ 0 := by
    obtain ⟨r, hr⟩ := List.exists_mem_of_ne_nil parts.requests hne
    have hmem : r ∈ msgs := requests_mem_msgs msgs parts hpart r hr
    intro h0
    rw [List.length_eq_zero] at h0
    subst h0
    simp at hmem
  refine ⟨?_, ?_, ?_, ?_⟩
  · intro hn
    have hok := postHandler_notifsOk callTool now freshIds accept ct hdr body st
      msgs parts hacc hct hnorm hlen hpart st
      (by rw [hn]; exact processNotifications_empty hdr st now)
    exact hok.trans
      (postAfterNotifications_mixedInit callTool now freshIds hdr parts st hne hmix)
  · rintro sid s rfl hlk
    have hok := postHandler_notifsOk callTool now freshIds accept ct (some sid)
      body st msgs parts hacc hct hnorm hlen hpart _
      (processNotifications_live sid parts.notifications st now s hlk)
    exact hok.trans
      (postAfterNotifications_mixedInit callTool now freshIds (some sid) parts _ hne hmix)
  · rintro rfl
    by_cases hn : parts.notifications = []
    · have hok := postHandler_notifsOk callTool now freshIds accept ct none body st
        msgs parts hacc hct hnorm hlen hpart st
        (by rw [hn]; exact processNotifications_empty none st now)
      exact ⟨"Initialize request must be sent separately.", hok.trans
        (postAfterNotifications_mixedInit callTool now freshIds none parts st hne hmix)⟩
    · exact ⟨"Missing Mcp-Session-Id header",
        postHandler_notifsErr callTool now freshIds accept ct none body st
          msgs parts hacc hct hnorm hlen hpart _ st
          (processNotifications_noHeader _ _ _ hn)⟩
  · rintro sid rfl hlk hn
    exact postHandler_notifsErr callTool now freshIds accept ct (some sid) body st
      msgs parts hacc hct hnorm hlen hpart _ st
      (processNotifications_unknown sid _ st now hn hlk)

/-- Witness for C3 (amended): a handshake-plus-ping batch against a live
session is rejected 400 with no stream. -/
theorem c3_handshake_exclusive_witness :
    let tool : String → JsValue → Except Exc JsValue := fun _ _ => .ok (.obj [])
    let body : JsValue :=
      .arr [.obj [("jsonrpc", .str "2.0"), ("id", .num 1), ("method", .str "initialize")],
            .obj [("jsonrpc", .str "2.0"), ("id", .num 2), ("method", .str "ping")]]
    let sess : Session := ⟨"live", 0, 7, true⟩
    postHandler tool 9 (fun _ => "u") "application/json" "application/json"
        (some "live") body [sess] =
      (.error 400 "Initialize request must be sent separately.", [sess]) := by
  intro tool body sess
  have h := (c3_handshake_exclusive tool 9 (fun _ => "u") "application/json"
    "application/json" (some "live") body [sess]
    [.obj [("jsonrpc", .str "2.0"), ("id", .num 1), ("method", .str "initialize")],
     .obj [("jsonrpc", .str "2.0"), ("id", .num 2), ("method", .str "ping")]]
    ⟨[.obj [("jsonrpc", .str "2.0"), ("id", .num 1), ("method", .str "initialize")],
      .obj [("jsonrpc", .str "2.0"), ("id", .num 2), ("method", .str "ping")]], [], []⟩
    rfl rfl rfl rfl ⟨by decide, by decide⟩).2.1 "live" sess rfl rfl
  exact h

theorem postAfterNotifications_accepted
    (callTool : String → JsValue → Except Exc JsValue) (now : Nat)
    (freshIds : Nat → String) (hdr : Option String) (parts : Partition)
    (st : Store) (h : parts.requests = []) :
    postAfterNotifications callTool now freshIds hdr parts st = (.accepted, st) := by
  unfold postAfterNotifications
  rw [if_pos (by simp [h])]

theorem notifMutation_flag (now : Nat) (ns : List JsValue) (st : Store)
    (sid : String) (s : Session) (hlk : lookup st sid = some s)
    (hex : ∃ n ∈ ns, asStr (objGet n "method") = "initialized") :
    ∃ s', lookup (processNotifIter now ns s st).2 sid = some s' ∧
      s'.initialized = true ∧ s'.lastActivity = now := by
  have hid : s.id = sid := lookup_id st sid s hlk
  have hlk' : lookup st s.id = some s := by rw [hid]; exact hlk
  have hiter := processNotifIter_lookup now ns s st hlk'
  have hflag := processNotifIter_initialized now ns s st hex
  exact ⟨(processNotifIter now ns s st).1, by rw [← hid]; exact hiter,
    hflag.1, hflag.2⟩

/-- Claim C8: a batch with no Requests and at least one notification, sent
against a live session, is accepted with an empty 202 and no stream; an
`initialized` notification in it leaves the session flagged initialized with
its activity timestamp refreshed to now; the same batch against an unknown
session identifier fails with 404. -/
theorem c8_notifications_only (callTool : String → JsValue → Except Exc JsValue)
    (now : Nat) (freshIds : Nat → String) (accept ct : String) (sid : String)
    (body : JsValue) (st : Store) (msgs : List JsValue) (parts : Partition)
    (s : Session)
    (hacc : enforceAcceptHeader accept = .ok ())
    (hct : enforceJsonContent ct = .ok ())
    (hnorm : normalizeMessages body = .ok msgs)
    (hpart : partitionMessages msgs = .ok parts)
    (hreqs : parts.requests = [])
    (hnotifs : parts.notifications ≠ []) :
    (lookup st sid = none →
       postHandler callTool now freshIds accept ct (some sid) body st =
         (.error 404 "Session not found", st)) ∧
    (lookup st sid = some s →
       (postHandler callTool now freshIds accept ct (some sid) body st).1 =
         .accepted ∧
       ((∃ n ∈ parts.notifications, asStr (objGet n "method") = "initialized") →
          ∃ s', lookup (postHandler callTool now freshIds accept ct (some sid)
              body st).2 sid = some s' ∧
            s'.initialized = true ∧ s'.lastActivity = now)) := by
  have hlen : msgs.length ≠ 0 := by
    obtain ⟨n, hn⟩ := List.exists_mem_of_ne_nil parts.notifications hnotifs
    have hmem : n ∈ msgs := notifications_mem_msgs msgs parts hpart n hn
    intro h0
    rw [List.length_eq_zero] at h0
    subst h0
    simp at hmem
  constructor
  · intro hlk
    exact postHandler_notifsErr callTool now freshIds accept ct (some sid) body st
      msgs parts hacc hct hnorm hlen hpart _ st
      (processNotifications_unknown sid _ st now hnotifs hlk)
  · intro hlk
    have hok := postHandler_notifsOk callTool now freshIds accept ct (some sid)
      body st msgs parts hacc hct hnorm hlen hpart _
      (processNotifications_live sid parts.notifications st now s hlk)
    have hacc202 := postAfterNotifications_accepted callTool now freshIds
      (some sid) parts (processNotifIter now parts.notifications s st).2 hreqs
    rw [hok, hacc202]
    exact ⟨rfl, fun hex => notifMutation_flag now parts.notifications st sid s hlk hex⟩

/-- Witness for C8 at a concrete `initialized`-only batch: live session gives
202 and flips the flag; unknown session gives 404. -/
theorem c8_notifications_only_witness :
    let tool : String → JsValue → Except Exc JsValue := fun _ _ => .ok (.obj [])
    let body : JsValue := .arr [.obj [("jsonrpc", .str "2.0"),
      ("method", .str "initialized")]]
    let sess : Session := ⟨"live", 0, 0, false⟩
    (postHandler tool 5 (fun _ => "u") "application/json" "application/json"
        (some "live") body [sess]).1 = .accepted ∧
    (∃ s', lookup (postHandler tool 5 (fun _ => "u") "application/json"
        "application/json" (some "live") body [sess]).2 "live" = some s' ∧
      s'.initialized = true ∧ s'.lastActivity = 5) ∧
    postHandler tool 5 (fun _ => "u") "application/json" "application/json"
      (some "ghost") body [sess] = (.error 404 "Session not found", [sess]) := by
  intro tool body sess
  have hlive := (c8_notifications_only tool 5 (fun _ => "u") "application/json"
    "application/json" "live" body [sess]
    [.obj [("jsonrpc", .str "2.0"), ("method", .str "initialized")]]
    ⟨[], [.obj [("jsonrpc", .str "2.0"), ("method", .str "initialized")]], []⟩
    sess rfl rfl rfl rfl rfl (by simp)).2 rfl
  have hghost := (c8_notifications_only tool 5 (fun _ => "u") "application/json"
    "application/json" "ghost" body [sess]
    [.obj [("jsonrpc", .str "2.0"), ("method", .str "initialized")]]
    ⟨[], [.obj [("jsonrpc", .str "2.0"), ("method", .str "initialized")]], []⟩
    sess rfl rfl rfl rfl rfl (by simp)).1 rfl
  refine ⟨hlive.1, hlive.2 ?_, hghost⟩
  exact ⟨.obj [("jsonrpc", .str "2.0"), ("method", .str "initialized")],
    by simp, by decide⟩

/-- Claim C10: the synchronous notification pass runs before the
batch-composition check: when a mixed handshake batch sent against a live
session is rejected with 400, the store the call leaves behind is exactly the
store after the notifications' mutations, and an `initialized` notification's
flag and activity-timestamp updates persist. -/
theorem c10_notification_mutations_persist
    (callTool : String → JsValue → Except Exc JsValue)
    (now : Nat) (freshIds : Nat → String) (accept ct : String) (sid : String)
    (body : JsValue) (st : Store) (msgs : List JsValue) (parts : Partition)
    (s : Session)
    (hacc : enforceAcceptHeader accept = .ok ())
    (hct : enforceJsonContent ct = .ok ())
    (hnorm : normalizeMessages body = .ok msgs)
    (hpart : partitionMessages msgs = .ok parts)
    (hlk : lookup st sid = some s)
    (hmix : ((parts.requests.any fun r => asStr (objGet r "method") == "initialize") = true) ∧
      1 < parts.requests.length) :
    postHandler callTool now freshIds accept ct (some sid) body st =
      (.error 400 "Initialize request must be sent separately.",
       (processNotifIter now parts.notifications s st).2) ∧
    ((∃ n ∈ parts.notifications, asStr (objGet n "method") = "initialized") →
       ∃ s', lookup (processNotifIter now parts.notifications s st).2 sid = some s' ∧
         s'.initialized = true ∧ s'.lastActivity = now) := by
  have hne : parts.requests ≠ [] := by
    intro h0
    rw [h0] at hmix
    simp at hmix
  have hlen : msgs.length ≠ 0 := by
    obtain ⟨r, hr⟩ := List.exists_mem_of_ne_nil parts.requests hne
    have hmem : r ∈ msgs := requests_mem_msgs msgs parts hpart r hr
    intro h0
    rw [List.length_eq_zero] at h0
    subst h0
    simp at hmem
  have hok := postHandler_notifsOk callTool now freshIds accept ct (some sid)
    body st msgs parts hacc hct hnorm hlen hpart _
    (processNotifications_live sid parts.notifications st now s hlk)
  refine ⟨hok.trans (postAfterNotifications_mixedInit callTool now freshIds
    (some sid) parts _ hne hmix), ?_⟩
  exact fun hex => notifMutation_flag now parts.notifications st sid s hlk hex

/-- Witness for C10: an `initialized` notification beside a handshake-plus-
ping batch; the call fails 400 yet the session leaves initialized with its
timestamp refreshed. -/
theorem c10_notification_mutations_persist_witness :
    let tool : String → JsValue → Except Exc JsValue := fun _ _ => .ok (.obj [])
    let notif : JsValue := .obj [("jsonrpc", .str "2.0"), ("method", .str "initialized")]
    let body : JsValue :=
      .arr [notif,
            .obj [("jsonrpc", .str "2.0"), ("id", .num 1), ("method", .str "initialize")],
            .obj [("jsonrpc", .str "2.0"), ("id", .num 2), ("method", .str "ping")]]
    let sess : Session := ⟨"live", 0, 0, false⟩
    (postHandler tool 5 (fun _ => "u") "application/json" "application/json"
        (some "live") body [sess]).1 =
      .error 400 "Initialize request must be sent separately." ∧
    ∃ s', lookup (postHandler tool 5 (fun _ => "u") "application/json"
        "application/json" (some "live") body [sess]).2 "live" = some s' ∧
      s'.initialized = true ∧ s'.lastActivity = 5 := by
  intro tool notif body sess
  have h := c10_notification_mutations_persist tool 5 (fun _ => "u")
    "application/json" "application/json" "live" body [sess]
    [notif,
     .obj [("jsonrpc", .str "2.0"), ("id", .num 1), ("method", .str "initialize")],
     .obj [("jsonrpc", .str "2.0"), ("id", .num 2), ("method", .str "ping")]]
    ⟨[.obj [("jsonrpc", .str "2.0"), ("id", .num 1), ("method", .str "initialize")],
      .obj [("jsonrpc", .str "2.0"), ("id", .num 2), ("method", .str "ping")]],
     [notif], []⟩
    sess rfl rfl rfl rfl rfl ⟨by decide, by decide⟩
  refine ⟨by rw [h.1], ?_⟩
  have hs' := h.2 ⟨notif, by simp, by decide⟩
  obtain ⟨s', hs1, hs2, hs3⟩ := hs'
  refine ⟨s', ?_, hs2, hs3⟩
  rw [h.1]
  exact hs1

theorem partitionGo_err (xs : List JsValue) :
    JsValue.null ∈ xs →
      ∀ acc, ∃ m, partitionGo xs acc = .error (.typeError m) := by
  induction xs with
  | nil => intro h; simp at h
  | cons x rest ih =>
    intro h acc
    by_cases hx1 : x = .null
    · subst hx1
      exact ⟨_, by rw [partitionGo, isRequest_null]⟩
    · by_cases hx2 : x = .undefined
      · subst hx2
        exact ⟨_, by rw [partitionGo]; rfl⟩
      · have hmem : JsValue.null ∈ rest := by
          rcases List.mem_cons.mp h with heq | hm
          · exact absurd heq.symm hx1
          · exact hm
        rw [partitionGo, isRequest_eq x hx1 hx2]
        cases hreq : specIsRequest x
        · rw [isNotification_eq x hx1 hx2]
          cases hnot : specIsNotification x
          · exact ih hmem _
          · exact ih hmem _
        · exact ih hmem _

/-- Counterexample to C9 as stated: an array body whose only element is the
number 5 — not an object — does not fail with HTTP 500: the classifier's
`typeof message.method` check short-circuits before the `'id' in message`
test, the number lands in the responses pile, and the call is accepted with
an empty 202. -/
theorem c9_counterexample :
    postHandler (fun _ _ => .ok .undefined) 0 (fun _ => "u")
      "application/json" "application/json" none (.arr [.num 5]) [] =
      (.accepted, []) ∧
    ∀ m, (HandlerResult.accepted : HandlerResult) ≠ .error 500 m := by
  refine ⟨rfl, fun m h => ?_⟩
  cases h

/-- Claim C9 (amended): only `null` (or `undefined`) elements of an array
body make the classifier throw — property access on them raises a
`TypeError`, which the outer handler maps to a plain HTTP 500 with the store
untouched; non-object primitives such as numbers or strings short-circuit the
`method` test instead, are filed as Responses, and do not fail the call. -/
theorem c9_null_element_500 (callTool : String → JsValue → Except Exc JsValue)
    (now : Nat) (freshIds : Nat → String) (accept ct : String)
    (hdr : Option String) (xs : List JsValue) (st : Store)
    (hacc : enforceAcceptHeader accept = .ok ())
    (hct : enforceJsonContent ct = .ok ())
    (hnull : JsValue.null ∈ xs) :
    postHandler callTool now freshIds accept ct hdr (.arr xs) st =
      (.error 500 "Internal server error", st) := by
  obtain ⟨m, herr⟩ := partitionGo_err xs hnull ⟨[], [], []⟩
  have hlen : xs.length ≠ 0 := by
    intro h0
    rw [List.length_eq_zero] at h0
    subst h0
    simp at hnull
  have hp : partitionMessages xs = .error (.typeError m) := herr
  unfold postHandler
  simp only [hacc, hct]
  have hnorm : normalizeMessages (.arr xs) = .ok xs := rfl
  simp only [hnorm, if_neg hlen, hp]
  rfl

/-- Witness for C9 (amended): a body mixing a real request with a `null`
element is answered by a plain 500 and the session store is untouched. -/
theorem c9_null_element_500_witness :
    let tool : String → JsValue → Except Exc JsValue := fun _ _ => .ok (.obj [])
    let sess : Session := ⟨"live", 0, 0, true⟩
    postHandler tool 0 (fun _ => "u") "application/json" "application/json"
      (some "live")
      (.arr [.obj [("jsonrpc", .str "2.0"), ("id", .num 1), ("method", .str "ping")],
             .null])
      [sess] =
      (.error 500 "Internal server error", [sess]) := by
  intro tool sess
  exact c9_null_element_500 tool 0 (fun _ => "u") "application/json"
    "application/json" (some "live")
    [.obj [("jsonrpc", .str "2.0"), ("id", .num 1), ("method", .str "ping")], .null]
    [sess] rfl rfl (by simp)

end LegalMcp
